import Mathlib

/-!
# Verification of the energy-ai bill-payment core

A shallow embedding of the payment backend (`backend/server.js`, the Express
proxy), the frontend payment utilities (`razorpay.js`) and the payment page
(`PaymentHistory.jsx`), together with proofs about the signature-verification
contract, the create-order validation, the webhook handler and the bill
lifecycle updates.

Bytes are `Nat` values below 256; 32-bit machine words are `Nat` with explicit
reduction modulo `2^32`.  The Node `crypto` HMAC-SHA-256 primitive used by the
backend is modelled by a full implementation of SHA-256 (FIPS 180-4) and HMAC
(RFC 2104) over byte lists, validated below against published test vectors.
-/

namespace EnergyAI

/-! ## Bytes, UTF-8 and hex -/

/-- UTF-8 encoding of a single Unicode scalar value, as bytes. -/
def utf8Char (c : Nat) : List Nat :=
  if c < 0x80 then [c]
  else if c < 0x800 then
    [0xC0 ||| (c >>> 6), 0x80 ||| (c &&& 0x3F)]
  else if c < 0x10000 then
    [0xE0 ||| (c >>> 12), 0x80 ||| ((c >>> 6) &&& 0x3F), 0x80 ||| (c &&& 0x3F)]
  else
    [0xF0 ||| (c >>> 18), 0x80 ||| ((c >>> 12) &&& 0x3F),
     0x80 ||| ((c >>> 6) &&& 0x3F), 0x80 ||| (c &&& 0x3F)]

/-- UTF-8 bytes of a string. -/
def utf8 (s : String) : List Nat :=
  s.data.flatMap (fun ch => utf8Char ch.toNat)

/-- Lower-case hex digit for a value below 16. -/
def hexDigit (n : Nat) : Char :=
  if n < 10 then Char.ofNat (48 + n) else Char.ofNat (87 + n)

/-- Lower-case hex encoding of a byte list (two digits per byte), as
`Buffer.digest('hex')` produces. -/
def toHex (bs : List Nat) : String :=
  String.mk (bs.flatMap (fun b => [hexDigit ((b >>> 4) &&& 0xF), hexDigit (b &&& 0xF)]))

/-! ## SHA-256 (FIPS 180-4) -/

/-- Reduce to a 32-bit word. -/
def w32 (n : Nat) : Nat := n % 2 ^ 32

/-- 32-bit modular addition. -/
def add32 (a b : Nat) : Nat := (a + b) % 2 ^ 32

/-- Right rotation of a 32-bit word by `n` places. -/
def rotr (n x : Nat) : Nat := ((x >>> n) ||| (x <<< (32 - n))) % 2 ^ 32

/-- Bitwise complement of a 32-bit word. -/
def not32 (x : Nat) : Nat := x ^^^ 0xFFFFFFFF

def ch32 (x y z : Nat) : Nat := (x &&& y) ^^^ (not32 x &&& z)

def maj32 (x y z : Nat) : Nat := (x &&& y) ^^^ (x &&& z) ^^^ (y &&& z)

def bigSigma0 (x : Nat) : Nat := rotr 2 x ^^^ rotr 13 x ^^^ rotr 22 x

def bigSigma1 (x : Nat) : Nat := rotr 6 x ^^^ rotr 11 x ^^^ rotr 25 x

def smallSigma0 (x : Nat) : Nat := rotr 7 x ^^^ rotr 18 x ^^^ (x >>> 3)

def smallSigma1 (x : Nat) : Nat := rotr 17 x ^^^ rotr 19 x ^^^ (x >>> 10)

/-- The 64 SHA-256 round constants (FIPS 180-4 §4.2.2), written in decimal. -/
def sha256K : List Nat :=
  [1116352408, 1899447441, 3049323471, 3921009573, 961987163, 1508970993,
   2453635748, 2870763221, 3624381080, 310598401, 607225278, 1426881987,
   1925078388, 2162078206, 2614888103, 3248222580, 3835390401, 4022224774,
   264347078, 604807628, 770255983, 1249150122, 1555081692, 1996064986,
   2554220882, 2821834349, 2952996808, 3210313671, 3336571891, 3584528711,
   113926993, 338241895, 666307205, 773529912, 1294757372, 1396182291,
   1695183700, 1986661051, 2177026350, 2456956037, 2730485921, 2820302411,
   3259730800, 3345764771, 3516065817, 3600352804, 4094571909, 275423344,
   430227734, 506948616, 659060556, 883997877, 958139571, 1322822218,
   1537002063, 1747873779, 1955562222, 2024104815, 2227730452, 2361852424,
   2428436474, 2756734187, 3204031479, 3329325298]

/-- The SHA-256 working state: eight 32-bit words. -/
structure Hash8 where
  a : Nat
  b : Nat
  c : Nat
  d : Nat
  e : Nat
  f : Nat
  g : Nat
  h : Nat
deriving DecidableEq, Repr

/-- SHA-256 initial hash value (FIPS 180-4 §5.3.3), written in decimal. -/
def sha256H0 : Hash8 :=
  ⟨1779033703, 3144134277, 1013904242, 2773480762,
   1359893119, 2600822924, 528734635, 1541459225⟩

/-- Big-endian 8-byte encoding of a (length) value. -/
def be64 (n : Nat) : List Nat :=
  [(n >>> 56) &&& 0xFF, (n >>> 48) &&& 0xFF, (n >>> 40) &&& 0xFF,
   (n >>> 32) &&& 0xFF, (n >>> 24) &&& 0xFF, (n >>> 16) &&& 0xFF,
   (n >>> 8) &&& 0xFF, n &&& 0xFF]

/-- SHA-256 padding: append `0x80`, zero bytes to 56 mod 64, then the
64-bit big-endian bit length. -/
def sha256Pad (msg : List Nat) : List Nat :=
  let l := msg.length
  let zeros := (119 - l % 64) % 64
  msg ++ [0x80] ++ List.replicate zeros 0 ++ be64 (8 * l)

/-- Group bytes into big-endian 32-bit words (length must be a multiple of 4). -/
def bytesToWords : List Nat → List Nat
  | b0 :: b1 :: b2 :: b3 :: rest =>
      (((b0 <<< 24) ||| (b1 <<< 16)) ||| ((b2 <<< 8) ||| b3)) :: bytesToWords rest
  | _ => []

/-- Split a word list into 16-word blocks. -/
def toBlocks (ws : List Nat) : List (List Nat) :=
  (List.range (ws.length / 16)).map (fun i => ((ws.drop (16 * i)).take 16))

/-- Extend the 16-word message block by `n` further schedule words. -/
def scheduleExt : Nat → List Nat → List Nat
  | 0, ws => ws
  | n + 1, ws =>
      let t := ws.length
      let wNew := add32 (add32 (smallSigma1 (ws.getD (t - 2) 0)) (ws.getD (t - 7) 0))
                        (add32 (smallSigma0 (ws.getD (t - 15) 0)) (ws.getD (t - 16) 0))
      scheduleExt n (ws ++ [wNew])

/-- One SHA-256 compression round with round constant `k` and schedule word `w`. -/
def sha256Round (st : Hash8) (k w : Nat) : Hash8 :=
  let t1 := add32 st.h (add32 (bigSigma1 st.e) (add32 (ch32 st.e st.f st.g) (add32 k w)))
  let t2 := add32 (bigSigma0 st.a) (maj32 st.a st.b st.c)
  ⟨add32 t1 t2, st.a, st.b, st.c, add32 st.d t1, st.e, st.f, st.g⟩

/-- Compress one 16-word block into the running hash. -/
def sha256Block (st : Hash8) (block : List Nat) : Hash8 :=
  let ws := scheduleExt 48 block
  let fin := (sha256K.zip ws).foldl (fun s kw => sha256Round s kw.1 kw.2) st
  ⟨add32 st.a fin.a, add32 st.b fin.b, add32 st.c fin.c, add32 st.d fin.d,
   add32 st.e fin.e, add32 st.f fin.f, add32 st.g fin.g, add32 st.h fin.h⟩

/-- Big-endian 4-byte encoding of a 32-bit word. -/
def be32 (n : Nat) : List Nat :=
  [(n >>> 24) &&& 0xFF, (n >>> 16) &&& 0xFF, (n >>> 8) &&& 0xFF, n &&& 0xFF]

/-- SHA-256 of a byte list, as 32 digest bytes. -/
def sha256Bytes (msg : List Nat) : List Nat :=
  let st := (toBlocks (bytesToWords (sha256Pad msg))).foldl sha256Block sha256H0
  be32 st.a ++ be32 st.b ++ be32 st.c ++ be32 st.d ++
  be32 st.e ++ be32 st.f ++ be32 st.g ++ be32 st.h

/-! ## HMAC-SHA-256 (RFC 2104), the `crypto.createHmac('sha256', key)` model -/

/-- HMAC-SHA-256 over byte lists: key normalised to the 64-byte block size,
inner pad `0x36`, outer pad `0x5c`. -/
def hmacSha256 (key msg : List Nat) : List Nat :=
  let k0 := if 64 < key.length then sha256Bytes key else key
  let kb := k0 ++ List.replicate (64 - k0.length) 0
  let ipad := kb.map (fun b => b ^^^ 0x36)
  let opad := kb.map (fun b => b ^^^ 0x5C)
  sha256Bytes (opad ++ sha256Bytes (ipad ++ msg))

/-- `crypto.createHmac('sha256', key).update(msg).digest('hex')`: HMAC-SHA-256
over the UTF-8 bytes of `msg`, keyed by the UTF-8 bytes of `key`, hex-encoded. -/
def hmacSha256Hex (key msg : String) : String :=
  toHex (hmacSha256 (utf8 key) (utf8 msg))

/-! ## JSON values

Parsed request bodies, as `express.json()` hands them to the handlers, and
`JSON.stringify`, which the webhook handler applies to the parsed body before
computing its HMAC. -/

/-- A JSON value (JavaScript value as produced by `JSON.parse`).  Numbers are
restricted to integers — the payloads this backend touches carry only strings
and objects, and integer literals round-trip exactly, which floating-point
numbers would not. -/
inductive JsonVal where
  | null
  | bool (b : Bool)
  | num (n : Int)
  | str (s : String)
  | arr (elems : List JsonVal)
  | obj (fields : List (String × JsonVal))
deriving Repr

/-- `JSON.stringify` escaping for one character of a string. -/
def jsonEscapeChar (c : Char) : List Char :=
  if c.toNat = 34 then [Char.ofNat 92, Char.ofNat 34]
  else if c.toNat = 92 then [Char.ofNat 92, Char.ofNat 92]
  else if c.toNat = 8 then [Char.ofNat 92, Char.ofNat 98]
  else if c.toNat = 9 then [Char.ofNat 92, Char.ofNat 116]
  else if c.toNat = 10 then [Char.ofNat 92, Char.ofNat 110]
  else if c.toNat = 12 then [Char.ofNat 92, Char.ofNat 102]
  else if c.toNat = 13 then [Char.ofNat 92, Char.ofNat 114]
  else if c.toNat < 32 then
    [Char.ofNat 92, Char.ofNat 117, Char.ofNat 48, Char.ofNat 48,
     hexDigit (c.toNat >>> 4), hexDigit (c.toNat &&& 0xF)]
  else [c]

/-- A JSON string literal: quoted and escaped as `JSON.stringify` emits it. -/
def jsonQuote (s : String) : String :=
  String.mk (Char.ofNat 34 :: s.data.flatMap jsonEscapeChar ++ [Char.ofNat 34])

mutual

/-- `JSON.stringify` of a value: canonical compact form, no whitespace,
object fields in insertion order. -/
def JsonVal.stringify : JsonVal → String
  | .null => "null"
  | .bool true => "true"
  | .bool false => "false"
  | .num n => toString n
  | .str s => jsonQuote s
  | .arr xs => "[" ++ stringifyElems xs ++ "]"
  | .obj fs => "\x7b" ++ stringifyFields fs ++ "\x7d"

/-- Comma-separated stringification of array elements. -/
def stringifyElems : List JsonVal → String
  | [] => ""
  | [x] => x.stringify
  | x :: y :: xs => x.stringify ++ "," ++ stringifyElems (y :: xs)

/-- Comma-separated stringification of object fields. -/
def stringifyFields : List (String × JsonVal) → String
  | [] => ""
  | [(k, v)] => jsonQuote k ++ ":" ++ v.stringify
  | (k, v) :: f :: fs => jsonQuote k ++ ":" ++ v.stringify ++ "," ++ stringifyFields (f :: fs)

end

/-! ### A model of `JSON.parse`

`express.json()` builds `req.body` by applying `JSON.parse` to the raw request
bytes.  The model below covers the fragment the claims need — objects, arrays,
strings with the simple escapes, integers, `true`/`false`/`null`, and
interstitial whitespace — and returns `none` outside it (`\u` escapes,
fractional or exponent numbers).  It is sound for the fragment: whenever it
returns `some v`, `JSON.parse` on the same text yields exactly `v`. -/

/-- JSON interstitial whitespace: space, tab, line feed, carriage return. -/
def isWsChar (c : Char) : Bool :=
  c.toNat = 32 || c.toNat = 9 || c.toNat = 10 || c.toNat = 13

/-- Drop leading JSON whitespace. -/
def skipWs (cs : List Char) : List Char := cs.dropWhile isWsChar

/-- Parse the remainder of a JSON string after the opening quote, handling the
simple escapes; returns the decoded characters and the rest of the input. -/
def parseStringChars : List Char → Option (List Char × List Char)
  | [] => none
  | c :: rest =>
    if c.toNat = 34 then some ([], rest)
    else if c.toNat = 92 then
      match rest with
      | [] => none
      | e :: rest2 =>
        let dec : Option Char :=
          if e.toNat = 34 then some (Char.ofNat 34)
          else if e.toNat = 92 then some (Char.ofNat 92)
          else if e.toNat = 47 then some (Char.ofNat 47)
          else if e.toNat = 98 then some (Char.ofNat 8)
          else if e.toNat = 102 then some (Char.ofNat 12)
          else if e.toNat = 110 then some (Char.ofNat 10)
          else if e.toNat = 114 then some (Char.ofNat 13)
          else if e.toNat = 116 then some (Char.ofNat 9)
          else none
        match dec with
        | none => none
        | some d =>
          match parseStringChars rest2 with
          | some (cs, rem) => some (d :: cs, rem)
          | none => none
    else if c.toNat < 32 then none
    else
      match parseStringChars rest with
      | some (cs, rem) => some (c :: cs, rem)
      | none => none

/-- Parse a JSON integer token (optional minus, digits, no leading zero);
`none` when the token continues with a fraction or exponent. -/
def parseIntToken (cs : List Char) : Option (JsonVal × List Char) :=
  let signed : Bool × List Char :=
    match cs with
    | c :: rest => if c.toNat = 45 then (true, rest) else (false, cs)
    | [] => (false, [])
  let ds := signed.2.takeWhile (fun c => 48 ≤ c.toNat && c.toNat ≤ 57)
  let rest := signed.2.dropWhile (fun c => 48 ≤ c.toNat && c.toNat ≤ 57)
  if ds.isEmpty then none
  else if 1 < ds.length && ds.headD (Char.ofNat 32) = Char.ofNat 48 then none
  else
    let magnitude : Nat := ds.foldl (fun a c => 10 * a + (c.toNat - 48)) 0
    let value : Int := if signed.1 then -(magnitude : Int) else (magnitude : Int)
    match rest with
    | c :: _ =>
      if c.toNat = 46 || c.toNat = 101 || c.toNat = 69 then none
      else some (.num value, rest)
    | [] => some (.num value, rest)

/-- Insert a parsed object member: a duplicate key keeps its first position but
takes the later value, as in JavaScript object construction. -/
def objInsert (fs : List (String × JsonVal)) (k : String) (v : JsonVal) :
    List (String × JsonVal) :=
  if fs.any (fun f => f.1 = k) then
    fs.map (fun f => if f.1 = k then (k, v) else f)
  else fs ++ [(k, v)]

mutual

/-- Parse one JSON value; `fuel` bounds the recursion and any `fuel` larger
than the input length suffices. -/
def parseVal : Nat → List Char → Option (JsonVal × List Char)
  | 0, _ => none
  | fuel + 1, cs0 =>
    match skipWs cs0 with
    | [] => none
    | c :: rest =>
      if c.toNat = 123 then
        match skipWs rest with
        | c2 :: rest2 =>
          if c2.toNat = 125 then some (.obj [], rest2)
          else parseMembers fuel (skipWs rest) []
        | [] => none
      else if c.toNat = 91 then
        match skipWs rest with
        | c2 :: rest2 =>
          if c2.toNat = 93 then some (.arr [], rest2)
          else parseElems fuel (skipWs rest) []
        | [] => none
      else if c.toNat = 34 then
        match parseStringChars rest with
        | some (cs, rem) => some (.str (String.mk cs), rem)
        | none => none
      else if c.toNat = 116 then
        match rest with
        | r :: u :: e :: rem =>
          if r.toNat = 114 && u.toNat = 117 && e.toNat = 101 then
            some (.bool true, rem)
          else none
        | _ => none
      else if c.toNat = 102 then
        match rest with
        | a :: l :: s :: e :: rem =>
          if a.toNat = 97 && l.toNat = 108 && s.toNat = 115 && e.toNat = 101 then
            some (.bool false, rem)
          else none
        | _ => none
      else if c.toNat = 110 then
        match rest with
        | u :: l1 :: l2 :: rem =>
          if u.toNat = 117 && l1.toNat = 108 && l2.toNat = 108 then
            some (.null, rem)
          else none
        | _ => none
      else parseIntToken (c :: rest)

/-- Parse the members of a JSON object, after the opening brace. -/
def parseMembers : Nat → List Char → List (String × JsonVal) →
    Option (JsonVal × List Char)
  | 0, _, _ => none
  | fuel + 1, cs, acc =>
    match skipWs cs with
    | [] => none
    | c :: rest =>
      if c.toNat = 34 then
        match parseStringChars rest with
        | none => none
        | some (kcs, rem1) =>
          match skipWs rem1 with
          | [] => none
          | c2 :: rem2 =>
            if c2.toNat = 58 then
              match parseVal fuel rem2 with
              | none => none
              | some (v, rem3) =>
                let acc2 := objInsert acc (String.mk kcs) v
                match skipWs rem3 with
                | [] => none
                | c3 :: rem4 =>
                  if c3.toNat = 44 then parseMembers fuel rem4 acc2
                  else if c3.toNat = 125 then some (.obj acc2, rem4)
                  else none
            else none
      else none

/-- Parse the elements of a JSON array, after the opening bracket. -/
def parseElems : Nat → List Char → List JsonVal → Option (JsonVal × List Char)
  | 0, _, _ => none
  | fuel + 1, cs, acc =>
    match parseVal fuel cs with
    | none => none
    | some (v, rem) =>
      match skipWs rem with
      | [] => none
      | c :: rest =>
        if c.toNat = 44 then parseElems fuel rest (acc ++ [v])
        else if c.toNat = 93 then some (.arr (acc ++ [v]), rest)
        else none

end

/-- `JSON.parse` on a whole document: one value, surrounded by whitespace only. -/
def jsonParse (s : String) : Option JsonVal :=
  match parseVal (s.length + 1) s.data with
  | some (v, rem) => if skipWs rem = [] then some v else none
  | none => none

/-! ## Persistent state

The Supabase `bills` and `payments` tables, restricted to the columns the
reconciliation flow reads or writes.  Timestamp and user columns, which depend
on the wall clock and the auth session, are elided. -/

/-- A row of the `bills` table: `status` is one of
`paid`, `unpaid`, `overdue`, `partial`. -/
structure Bill where
  id : String
  status : String
deriving DecidableEq, Repr

/-- A row of the `payments` table, as inserted by `handlePayment` in
`PaymentHistory.jsx` (columns that depend on the clock or session elided). -/
structure PaymentRecord where
  bill_id : String
  bill_number : String
  amount : ℚ
  status : String
  payment_method : String
  razorpay_order_id : String
  razorpay_payment_id : String
  razorpay_signature : String
  transaction_id : String
deriving DecidableEq, Repr

/-- The bill store: the two tables the payment flow touches. -/
structure Store where
  payments : List PaymentRecord
  bills : List Bill
deriving DecidableEq, Repr

/-! ## Backend: `POST /api/razorpay/create-order` (`backend/server.js`) -/

/-- `Math.round`: round half toward positive infinity, on exact rationals. -/
def jsMathRound (q : ℚ) : ℤ := ⌊q + 1 / 2⌋

/-- Outcome of the create-order endpoint, up to the outbound gateway call:
either the 400 rejection, or the order options passed to
`razorpay.orders.create` (the time-derived `receipt` field elided). -/
inductive CreateOrderResult where
  | badRequest (err msg : String)
  | orderRequest (amountMinor : ℤ) (currency : String)
deriving DecidableEq, Repr

/-- The create-order handler: `req.body.amount` is `none` when absent
(JavaScript `undefined`, falsy); a present amount is a JSON number, modelled
as an exact rational.  `!amount || amount <= 0` rejects with 400; otherwise
the rupee amount is converted to paise with `Math.round(amount * 100)`. -/
def createOrderHandler (amount : Option ℚ) (currency : String) : CreateOrderResult :=
  match amount with
  | none => .badRequest "Invalid amount" "Amount must be greater than 0"
  | some a =>
    if a = 0 ∨ a ≤ 0 then .badRequest "Invalid amount" "Amount must be greater than 0"
    else .orderRequest (jsMathRound (a * 100)) currency

/-! ## Backend: `POST /api/razorpay/verify-payment` (`backend/server.js`) -/

/-- The verify-payment request body; a field is `none` when absent. -/
structure VerifyPaymentReq where
  razorpay_order_id : Option String
  razorpay_payment_id : Option String
  razorpay_signature : Option String
deriving DecidableEq, Repr

/-- Responses of the verify-payment endpoint. -/
inductive VerifyPaymentResp where
  | missingFields400 (err msg : String)
  | verified200 (payment_id order_id : String)
  | invalidSignature400 (err msg : String)
deriving DecidableEq, Repr

/-- JavaScript truthiness of an optional string field: absent (`undefined`)
and the empty string are falsy. -/
def strTruthy : Option String → Bool
  | none => false
  | some s => !(s == "")

/-- The signature check at the heart of the endpoint: recompute
`HMAC-SHA256(secret, orderId + "|" + paymentId)` as lowercase hex and compare
it to the supplied signature with `===`. -/
def verifySignature (secret orderId paymentId sig : String) : Bool :=
  let sign := orderId ++ "|" ++ paymentId
  let expectedSignature := hmacSha256Hex secret sign
  expectedSignature == sig

/-- The verify-payment handler: reject with 400 when any of the three fields
is falsy, before any signature computation; otherwise verify and answer 200
(verified) or 400 (invalid signature). -/
def verifyPaymentHandler (secret : String) (req : VerifyPaymentReq) : VerifyPaymentResp :=
  if !(strTruthy req.razorpay_order_id) || !(strTruthy req.razorpay_payment_id) ||
      !(strTruthy req.razorpay_signature) then
    .missingFields400 "Missing required fields" "order_id, payment_id, and signature are required"
  else
    let o := req.razorpay_order_id.getD ""
    let p := req.razorpay_payment_id.getD ""
    let s := req.razorpay_signature.getD ""
    if verifySignature secret o p s then .verified200 p o
    else .invalidSignature400 "Invalid signature" "Payment verification failed"

/-! ## Backend: `POST /api/razorpay/webhook` (`backend/server.js`) -/

/-- The webhook environment: `RAZORPAY_WEBHOOK_SECRET`, possibly unset. -/
structure WebhookEnv where
  webhookSecret : Option String
deriving DecidableEq, Repr

/-- A webhook request: the `x-razorpay-signature` header (possibly absent) and
the parsed JSON body. -/
structure WebhookReq where
  sigHeader : Option String
  body : JsonVal

/-- Webhook responses: 200 `status: ok`, 400 invalid signature, or the 500 of
the surrounding catch block. -/
inductive WebhookResp where
  | ok200
  | invalidSig400
  | error500
deriving DecidableEq, Repr

/-- A thrown JavaScript error (the only kind this handler can raise is a
`TypeError` from a property access on `undefined` or `null`). -/
inductive JsErr where
  | typeError
deriving DecidableEq, Repr

/-- JavaScript property read `v.k` where `v` may be `undefined` (`none`):
throws on `undefined` and `null`, looks up object fields (absent key is
`undefined`), and yields `undefined` on other primitives. -/
def jsGetE : Option JsonVal → String → Except JsErr (Option JsonVal)
  | none, _ => .error .typeError
  | some .null, _ => .error .typeError
  | some (.obj fs), k => .ok (fs.lookup k)
  | some _, _ => .ok none

/-- JavaScript strict equality of a possibly-undefined value against a string
literal, as in `switch (event) ... case 'payment.captured'`. -/
def isEventStr (ev : Option JsonVal) (s : String) : Bool :=
  match ev with
  | some (.str t) => t == s
  | _ => false

/-- The message the webhook handler feeds to its HMAC:
`JSON.stringify(req.body)` — the re-serialization of the parsed body, not the
raw bytes that arrived on the wire. -/
def webhookMacMessage (body : JsonVal) : String := body.stringify

/-- The signature the webhook handler expects in the header. -/
def webhookExpectedSig (secret : String) (body : JsonVal) : String :=
  hmacSha256Hex secret (webhookMacMessage body)

/-- The access chain `payload.<kind>.entity.id`: throws when `payload`, the
`<kind>` field, or `entity` is `undefined`/`null`; the final `id` may be
`undefined` without throwing. -/
def entityIdOf (payload : Option JsonVal) (kind : String) : Except JsErr (Option JsonVal) := do
  let p ← jsGetE payload kind
  let e ← jsGetE p "entity"
  jsGetE e "id"

/-- The event dispatch of the webhook handler (the `switch` statement): each
recognized event only logs the entity id of its payload — the database update
is left as a comment in the source — and unrecognized events fall through to
the default log line. -/
def webhookProcess (body : JsonVal) : Except JsErr Unit :=
  match jsGetE (some body) "event" with
  | .error e => .error e
  | .ok event =>
    match jsGetE (some body) "payload" with
    | .error e => .error e
    | .ok payload =>
      if isEventStr event "payment.captured" then
        match entityIdOf payload "payment" with
        | .error e => .error e
        | .ok _ => .ok ()
      else if isEventStr event "payment.failed" then
        match entityIdOf payload "payment" with
        | .error e => .error e
        | .ok _ => .ok ()
      else if isEventStr event "order.paid" then
        match entityIdOf payload "order" with
        | .error e => .error e
        | .ok _ => .ok ()
      else .ok ()

/-- The response of the body-processing part: 200 on success, 500 when the
catch block receives a thrown error. -/
def webhookProcessResp (body : JsonVal) : WebhookResp :=
  match webhookProcess body with
  | .ok _ => .ok200
  | .error _ => .error500

/-- The webhook handler.  When the secret is configured, the header must equal
the HMAC of the re-serialized body or the request is answered 400; when it is
not configured, the signature check is skipped entirely.  The handler performs
no database writes in any branch, so the store passes through unchanged. -/
def webhookHandler (env : WebhookEnv) (st : Store) (req : WebhookReq) :
    WebhookResp × Store :=
  match env.webhookSecret with
  | some secret =>
    if req.sigHeader = some (webhookExpectedSig secret req.body) then
      (webhookProcessResp req.body, st)
    else
      (.invalidSig400, st)
  | none => (webhookProcessResp req.body, st)

/-! ## Frontend: `verifyPaymentSignature` (`src/utils/razorpay.js`) and
`handlePayment` (`src/pages/PaymentHistory.jsx`) -/

/-- Outcome of the `fetch` to the backend verify-payment endpoint, as the
frontend wrapper observes it: a JSON response with `response.ok`,
`data.success` and `data.verified`, or a thrown error (network failure,
non-JSON reply). -/
inductive VerifyFetchOutcome where
  | response (httpOk success verified : Bool)
  | networkError
deriving DecidableEq, Repr

/-- The frontend wrapper around the backend verifier: `false` when the
response is not ok or not successful, otherwise `data.verified` — and, in the
catch block, `true` on a thrown error (the `For POC let it pass` fallback). -/
def verifyPaymentSignature : VerifyFetchOutcome → Bool
  | .response httpOk success verified => if !httpOk || !success then false else verified
  | .networkError => true

/-- Whether the backend verifier actually returned a true verdict in the
observed outcome: a delivered response whose `verified` field is true.
A thrown fetch is not a true verdict. -/
def backendVerifierReturnedTrue : VerifyFetchOutcome → Bool
  | .response _ _ verified => verified
  | .networkError => false

/-- The gateway success callback payload handed to `onSuccess`. -/
structure RazorpayCallback where
  razorpay_order_id : String
  razorpay_payment_id : String
  razorpay_signature : String
deriving DecidableEq, Repr

/-- The bill update issued after a verified payment:
`update({ status: 'paid' }).eq('id', billData.id)` — conditioned on the id
only, with no predicate on the current status. -/
def updateBillsPaidById (bills : List Bill) (billId : String) : List Bill :=
  bills.map (fun b => if b.id = billId then { b with status := "paid" } else b)

/-- Modelled from the spec: the conditional transition the spec prescribes for
the reconciler and the webhook — "set `paid` where `status = unpaid`", a no-op
on bills in any other state.  This definition follows the spec text and exists
only to be compared with `updateBillsPaidById`, the update the code performs. -/
def setPaidWhereUnpaidSpec (bills : List Bill) (billId : String) : List Bill :=
  bills.map (fun b =>
    if b.id = billId ∧ b.status = "unpaid" then { b with status := "paid" } else b)

/-- The `onSuccess` branch of `handlePayment`: run the frontend verification
wrapper; on `false`, throw (caught locally — no store write); otherwise insert
the success `payments` row and set the bill status to `paid` by id.  The
returned flag is `true` on the success UI path, `false` when the verification
error was surfaced. -/
def handlePaymentOnSuccess (outcome : VerifyFetchOutcome) (cb : RazorpayCallback)
    (billId billNumber : String) (amount : ℚ) (st : Store) : Store × Bool :=
  if !(verifyPaymentSignature outcome) then (st, false)
  else
    let record : PaymentRecord :=
      { bill_id := billId
        bill_number := billNumber
        amount := amount
        status := "success"
        payment_method := "online"
        razorpay_order_id := cb.razorpay_order_id
        razorpay_payment_id := cb.razorpay_payment_id
        razorpay_signature := cb.razorpay_signature
        transaction_id := cb.razorpay_payment_id }
    let st1 : Store := { st with payments := st.payments ++ [record] }
    let st2 : Store := { st1 with bills := updateBillsPaidById st1.bills billId }
    (st2, true)

/-! ## Concrete demonstration inputs -/

/-- The signature gate passes or does not apply: either no webhook secret is
configured, or the header carries exactly the HMAC the handler recomputes. -/
def sigCheckPasses (env : WebhookEnv) (req : WebhookReq) : Prop :=
  match env.webhookSecret with
  | none => True
  | some secret => req.sigHeader = some (webhookExpectedSig secret req.body)

/-- A store holding one unpaid bill and no payment rows. -/
def demoStore : Store := ⟨[], [⟨"B1", "unpaid"⟩]⟩

/-- A fully-formed `payment.captured` webhook body, with the
`payload.payment.entity.id` chain present. -/
def capturedEventBody : JsonVal :=
  .obj [("event", .str "payment.captured"),
        ("payload", .obj [("payment", .obj [("entity", .obj [("id", .str "pay_ABC123")])])])]

/-! ## Supporting lemmas -/

theorem hexPair_length (bs : List Nat) :
    (bs.flatMap (fun b => [hexDigit ((b >>> 4) &&& 0xF), hexDigit (b &&& 0xF)])).length
      = 2 * bs.length := by
  induction bs with
  | nil => rfl
  | cons b tl ih => simp [ih]; omega

theorem toHex_length (bs : List Nat) : (toHex bs).length = 2 * bs.length :=
  hexPair_length bs

theorem sha256Bytes_length (msg : List Nat) : (sha256Bytes msg).length = 32 := by
  simp [sha256Bytes, be32]

theorem hmacSha256_length (key msg : List Nat) : (hmacSha256 key msg).length = 32 :=
  sha256Bytes_length _

theorem hmacSha256Hex_length (key msg : String) : (hmacSha256Hex key msg).length = 64 := by
  have h := toHex_length (hmacSha256 (utf8 key) (utf8 msg))
  rw [hmacSha256_length] at h
  exact h

set_option maxRecDepth 400000 in
/-- FIPS 180-4 test vector: the SHA-256 model digests `abc` correctly. -/
theorem sha256_abc_vector :
    toHex (sha256Bytes (utf8 "abc")) =
      "ba7816bf8f01cfea414140de5dae2223b00361a396177a9cb410ff61f20015ad" := by
  decide

set_option maxRecDepth 400000 in
/-- Published HMAC-SHA-256 test vector (key `key`, the quick-brown-fox
sentence), validating the HMAC model end to end. -/
theorem hmac_fox_vector :
    hmacSha256Hex "key" "The quick brown fox jumps over the lazy dog" =
      "f7bc83f430538424b13298e6aa6fb143ef4d59a14946175997479dbc2d1a3cd8" := by
  decide

theorem jsGetE_ok_of_ok (body : JsonVal) (k k2 : String) (v : Option JsonVal)
    (h : jsGetE (some body) k = .ok v) : ∃ w, jsGetE (some body) k2 = .ok w := by
  cases body <;> first
    | exact ⟨_, rfl⟩
    | (simp [jsGetE] at h)

theorem webhookProcessResp_ne_invalidSig (body : JsonVal) :
    webhookProcessResp body ≠ .invalidSig400 := by
  unfold webhookProcessResp
  cases h : webhookProcess body <;> simp

theorem webhookHandler_some (secret : String) (st : Store) (req : WebhookReq) :
    webhookHandler ⟨some secret⟩ st req =
      if req.sigHeader = some (webhookExpectedSig secret req.body) then
        (webhookProcessResp req.body, st)
      else (.invalidSig400, st) := rfl

theorem webhookHandler_none (st : Store) (req : WebhookReq) :
    webhookHandler ⟨none⟩ st req = (webhookProcessResp req.body, st) := rfl

/-! ## The claims -/

/-- Claim C9: in the client-side verification wrapper there is a code path on
which an exception while contacting the verification backend — a thrown
`fetch` — makes the function return `true`: the error fallback treats the
payment as verified. -/
theorem verify_wrapper_network_error_returns_true :
    verifyPaymentSignature .networkError = true := rfl

/-- Claim C1 (evaluation at the failing input): when the verify-payment fetch
throws, the backend verifier has returned no true verdict, yet the client
payment flow proceeds to insert a success payment row and transition the bill
to `paid` — the claimed invariant that every paid transition depends on the
verifier returning true is violated by the code. -/
theorem payment_flow_marks_paid_without_verifier_true :
    backendVerifierReturnedTrue .networkError = false
    ∧ (handlePaymentOnSuccess .networkError ⟨"order_1", "pay_1", "sig_1"⟩ "B1" "BN-1"
        1375 demoStore).1.bills = [⟨"B1", "paid"⟩]
    ∧ (handlePaymentOnSuccess .networkError ⟨"order_1", "pay_1", "sig_1"⟩ "B1" "BN-1"
        1375 demoStore).1.payments.length = 1 :=
  ⟨rfl, rfl, rfl⟩

/-- Claim C6 (evaluation at the failing input): a well-formed
`payment.captured` webhook is acknowledged with 200, but the handler performs
no persistence at all — the store is returned unchanged, with no payment row
for the captured id and the bill still `unpaid`, after one and after two
deliveries — contradicting the claim that the handler ensures a Payment record
exists and the linked bill is `paid`. -/
theorem webhook_captured_performs_no_persistence :
    webhookHandler ⟨none⟩ demoStore ⟨none, capturedEventBody⟩ = (.ok200, demoStore)
    ∧ demoStore.payments = []
    ∧ demoStore.bills = [⟨"B1", "unpaid"⟩]
    ∧ webhookHandler ⟨none⟩ (webhookHandler ⟨none⟩ demoStore ⟨none, capturedEventBody⟩).2
        ⟨none, capturedEventBody⟩ = (.ok200, demoStore) :=
  ⟨rfl, rfl, rfl, rfl⟩

/-- Claim C10, counterexample: with no webhook secret configured, a body whose
event is `payment.captured` but whose payload is absent makes the handler
throw on the `payload.payment` access and answer 500 — not 200, as the claim
asserts for every request body. -/
theorem webhook_no_secret_500_counterexample :
    (webhookHandler ⟨none⟩ demoStore
      ⟨none, .obj [("event", .str "payment.captured")]⟩).1 = .error500
    ∧ (webhookHandler ⟨none⟩ demoStore
        ⟨none, .obj [("event", .str "payment.captured")]⟩).1 ≠ .ok200 := by
  refine ⟨rfl, ?_⟩
  decide

/-- Claim C10, amended: when the webhook secret environment variable is not
configured the handler performs no signature verification at all — for every
store, body and (possibly absent) header it behaves exactly as the bare event
processing, answering 200 unless a payload access throws (then 500), and the
400 invalid-signature response is unreachable. -/
theorem webhook_no_secret_skips_verification_amended (st : Store) (req : WebhookReq) :
    webhookHandler ⟨none⟩ st req = (webhookProcessResp req.body, st)
    ∧ (webhookHandler ⟨none⟩ st req).1 ≠ .invalidSig400 :=
  ⟨rfl, webhookProcessResp_ne_invalidSig req.body⟩

/-- Claim C4, counterexample: the bill update issued after a verified payment
is not conditioned on the current status being `unpaid` — on a bill in state
`overdue` the code sets `paid`, where the conditional update the claim
describes would leave it untouched. -/
theorem bill_update_unconditional_counterexample :
    updateBillsPaidById [⟨"B1", "overdue"⟩] "B1" = [⟨"B1", "paid"⟩]
    ∧ setPaidWhereUnpaidSpec [⟨"B1", "overdue"⟩] "B1" = [⟨"B1", "overdue"⟩]
    ∧ updateBillsPaidById [⟨"B1", "overdue"⟩] "B1" ≠
        setPaidWhereUnpaidSpec [⟨"B1", "overdue"⟩] "B1" := by
  refine ⟨rfl, rfl, ?_⟩
  decide

/-- Claim C4, amended: the update is conditioned on the bill id only — every
matching bill ends `paid` regardless of its prior status, non-matching bills
pass through, and when every matching bill is already `paid` the update is a
no-op (the store is unchanged, with no error). -/
theorem bill_update_by_id_amended (bills : List Bill) (billId : String) :
    (∀ b ∈ updateBillsPaidById bills billId, b.id = billId → b.status = "paid")
    ∧ (∀ b ∈ bills, b.id ≠ billId → b ∈ updateBillsPaidById bills billId)
    ∧ ((∀ b ∈ bills, b.id = billId → b.status = "paid") →
        updateBillsPaidById bills billId = bills) := by
  refine ⟨?_, ?_, ?_⟩
  · intro b hb hid
    simp only [updateBillsPaidById, List.mem_map] at hb
    obtain ⟨x, hx, hfx⟩ := hb
    by_cases h : x.id = billId
    · rw [← hfx]
      simp [h]
    · rw [if_neg h] at hfx
      rw [← hfx] at hid
      exact absurd hid h
  · intro b hb hne
    simp only [updateBillsPaidById, List.mem_map]
    exact ⟨b, hb, if_neg hne⟩
  · intro hall
    have hmap : updateBillsPaidById bills billId = bills.map id := by
      unfold updateBillsPaidById
      apply List.map_congr_left
      intro b hb
      by_cases h : b.id = billId
      · have hs := hall b hb h
        cases b with
        | mk bid bstatus => simp_all
      · simp [h]
    simpa using hmap

/-- Witness for the amended C4: on a bill already `paid`, re-running the
update leaves the store exactly as it was. -/
theorem bill_update_by_id_amended_witness :
    updateBillsPaidById [⟨"B1", "paid"⟩] "B1" = [⟨"B1", "paid"⟩] :=
  (bill_update_by_id_amended [⟨"B1", "paid"⟩] "B1").2.2 (by decide)

/-- Claim C2: the verify operation recomputes HMAC-SHA-256 over the UTF-8
bytes of `orderId + "|" + paymentId` keyed by the secret, hex-encodes it, and
succeeds exactly on the matching signature — the correctly signed request
verifies, and any signature differing from the correct digest is rejected. -/
theorem verify_signature_correct_and_sound (secret orderId paymentId sig : String) :
    verifySignature secret orderId paymentId
      (hmacSha256Hex secret (orderId ++ "|" ++ paymentId)) = true
    ∧ (sig ≠ hmacSha256Hex secret (orderId ++ "|" ++ paymentId) →
        verifySignature secret orderId paymentId sig = false) := by
  constructor
  · simp [verifySignature]
  · intro h
    have hne : hmacSha256Hex secret (orderId ++ "|" ++ paymentId) ≠ sig :=
      fun hEq => h hEq.symm
    simpa [verifySignature] using hne

/-- Witness for C2 at a concrete order, payment and secret: the correct
signature is accepted and a forged one rejected (the forgery is distinguished
from the digest by its length: every hex digest has 64 characters). -/
theorem verify_signature_correct_and_sound_witness :
    verifySignature "secret" "order_1" "pay_1"
      (hmacSha256Hex "secret" ("order_1" ++ "|" ++ "pay_1")) = true
    ∧ verifySignature "secret" "order_1" "pay_1" "forged" = false := by
  constructor
  · exact (verify_signature_correct_and_sound "secret" "order_1" "pay_1" "forged").1
  · refine (verify_signature_correct_and_sound "secret" "order_1" "pay_1" "forged").2 ?_
    intro h
    have hl := hmacSha256Hex_length "secret" ("order_1" ++ "|" ++ "pay_1")
    rw [← h] at hl
    exact absurd hl (by decide)

/-- Claim C3: create-order rejects a missing or non-positive amount with the
400 invalid-amount response before any order is created, and for every
positive rupee amount builds the order with the minor-unit (paise) amount
`round(a * 100)`. -/
theorem create_order_validation_and_amount (a : ℚ) (currency : String) :
    (a ≤ 0 → createOrderHandler (some a) currency =
      .badRequest "Invalid amount" "Amount must be greater than 0")
    ∧ createOrderHandler none currency =
      .badRequest "Invalid amount" "Amount must be greater than 0"
    ∧ (0 < a → createOrderHandler (some a) currency =
        .orderRequest (round (a * 100)) currency) := by
  refine ⟨fun h => ?_, rfl, fun h => ?_⟩
  · simp only [createOrderHandler]
    rw [if_pos (Or.inr h)]
  · simp only [createOrderHandler]
    rw [if_neg (by
      rintro (h0 | hle)
      · rw [h0] at h
        exact lt_irrefl 0 h
      · exact absurd h (not_lt.mpr hle))]
    simp [jsMathRound, round_eq]

/-- Witness for C3: a negative amount is rejected with 400, and the bill
amount 137.50 rupees becomes the order amount 13750 paise. -/
theorem create_order_validation_and_amount_witness :
    createOrderHandler (some (-3)) "INR" =
      .badRequest "Invalid amount" "Amount must be greater than 0"
    ∧ createOrderHandler (some (1375 / 10)) "INR" = .orderRequest 13750 "INR" := by
  constructor
  · exact (create_order_validation_and_amount (-3) "INR").1 (by norm_num)
  · have h := (create_order_validation_and_amount (1375 / 10) "INR").2.2 (by norm_num)
    rw [h]
    norm_num [round_eq]

/-- Claim C8: verify-payment answers 400 with the field-level message whenever
any of the three fields is missing — reaching no signature computation — and
the signature check is only attempted when all three fields are present. -/
theorem verify_payment_missing_fields_400 (secret : String) (req : VerifyPaymentReq) :
    ((req.razorpay_order_id = none ∨ req.razorpay_payment_id = none ∨
        req.razorpay_signature = none) →
      verifyPaymentHandler secret req =
        .missingFields400 "Missing required fields"
          "order_id, payment_id, and signature are required")
    ∧ (verifyPaymentHandler secret req ≠
        .missingFields400 "Missing required fields"
          "order_id, payment_id, and signature are required" →
        req.razorpay_order_id.isSome = true ∧ req.razorpay_payment_id.isSome = true ∧
        req.razorpay_signature.isSome = true) := by
  have hmiss : (req.razorpay_order_id = none ∨ req.razorpay_payment_id = none ∨
      req.razorpay_signature = none) →
      verifyPaymentHandler secret req =
        .missingFields400 "Missing required fields"
          "order_id, payment_id, and signature are required" := by
    rintro (h | h | h) <;> simp [verifyPaymentHandler, h, strTruthy]
  refine ⟨hmiss, fun hne => ⟨?_, ?_, ?_⟩⟩
  · cases ho : req.razorpay_order_id with
    | none => exact absurd (hmiss (Or.inl ho)) hne
    | some _ => simp [ho]
  · cases hp : req.razorpay_payment_id with
    | none => exact absurd (hmiss (Or.inr (Or.inl hp))) hne
    | some _ => simp [hp]
  · cases hs : req.razorpay_signature with
    | none => exact absurd (hmiss (Or.inr (Or.inr hs))) hne
    | some _ => simp [hs]

/-- Witness for C8: a request with the signature field absent is answered with
the 400 missing-fields response. -/
theorem verify_payment_missing_fields_400_witness :
    verifyPaymentHandler "secret" ⟨some "order_1", some "pay_1", none⟩ =
      .missingFields400 "Missing required fields"
        "order_id, payment_id, and signature are required" :=
  (verify_payment_missing_fields_400 "secret" ⟨some "order_1", some "pay_1", none⟩).1
    (Or.inr (Or.inr rfl))

/-- Claim C5, counterexample: the webhook signature is computed over
`JSON.stringify(req.body)`, not the raw bytes — a raw body carrying an
interstitial space parses to a body whose MAC message differs from the raw
bytes received. -/
theorem webhook_mac_not_raw_body_counterexample :
    jsonParse "\x7b\"event\": \"ping\"\x7d" = some (.obj [("event", .str "ping")])
    ∧ webhookMacMessage (.obj [("event", .str "ping")]) ≠ "\x7b\"event\": \"ping\"\x7d" := by
  refine ⟨rfl, ?_⟩
  decide

/-- Claim C5, amended: the webhook handler computes its HMAC over the JSON
re-serialization of the parsed body — it accepts exactly the header equal to
that digest — and this coincides with a MAC over the raw received bytes only
when the raw body is byte-identical to its canonical re-serialization. -/
theorem webhook_mac_over_stringified_body (secret : String) (st : Store) (req : WebhookReq) :
    ((webhookHandler ⟨some secret⟩ st req).1 ≠ .invalidSig400 ↔
      req.sigHeader = some (hmacSha256Hex secret (JsonVal.stringify req.body)))
    ∧ (∀ raw, jsonParse raw = some req.body → JsonVal.stringify req.body = raw →
        webhookExpectedSig secret req.body = hmacSha256Hex secret raw) := by
  refine ⟨⟨fun h => ?_, fun h => ?_⟩, fun raw hparse hstr => ?_⟩
  · by_contra hne
    refine h ?_
    rw [webhookHandler_some]
    simp only [webhookExpectedSig, webhookMacMessage]
    rw [if_neg hne]
  · rw [webhookHandler_some]
    simp only [webhookExpectedSig, webhookMacMessage]
    rw [if_pos h]
    exact webhookProcessResp_ne_invalidSig req.body
  · unfold webhookExpectedSig webhookMacMessage
    rw [hstr]

/-- Witness for the amended C5: on the canonical raw body the computed
signature agrees with the MAC over the raw bytes. -/
theorem webhook_mac_over_stringified_body_witness :
    webhookExpectedSig "whsec_1" (.obj [("event", .str "ping")]) =
      hmacSha256Hex "whsec_1" "\x7b\"event\":\"ping\"\x7d" :=
  (webhook_mac_over_stringified_body "whsec_1" demoStore
      ⟨none, .obj [("event", .str "ping")]⟩).2
    "\x7b\"event\":\"ping\"\x7d" rfl (by decide)

/-- Claim C7: a webhook request that passes the signature gate (or for which
no gate applies), whose event reads successfully and is none of
`payment.captured`, `payment.failed`, `order.paid`, is accepted with 200 and
causes no state change. -/
theorem webhook_unrecognized_event_ok_and_no_state_change
    (env : WebhookEnv) (st : Store) (req : WebhookReq) (ev : Option JsonVal)
    (hsig : sigCheckPasses env req)
    (hev : jsGetE (some req.body) "event" = .ok ev)
    (h1 : isEventStr ev "payment.captured" = false)
    (h2 : isEventStr ev "payment.failed" = false)
    (h3 : isEventStr ev "order.paid" = false) :
    webhookHandler env st req = (.ok200, st) := by
  obtain ⟨pl, hpl⟩ := jsGetE_ok_of_ok req.body "event" "payload" ev hev
  have hproc : webhookProcess req.body = .ok () := by
    unfold webhookProcess
    rw [hev, hpl]
    simp [h1, h2, h3]
  obtain ⟨sec⟩ := env
  cases sec with
  | none =>
    rw [webhookHandler_none]
    simp [webhookProcessResp, hproc]
  | some s =>
    have hhd : req.sigHeader = some (webhookExpectedSig s req.body) := hsig
    rw [webhookHandler_some, if_pos hhd]
    simp [webhookProcessResp, hproc]

/-- Witness for C7: an unrecognized `invoice.paid` event, with no secret
configured, is answered 200 with the store untouched. -/
theorem webhook_unrecognized_event_witness :
    webhookHandler ⟨none⟩ demoStore ⟨none, .obj [("event", .str "invoice.paid")]⟩ =
      (.ok200, demoStore) :=
  webhook_unrecognized_event_ok_and_no_state_change ⟨none⟩ demoStore
    ⟨none, .obj [("event", .str "invoice.paid")]⟩ (some (.str "invoice.paid"))
    trivial rfl rfl rfl rfl

end EnergyAI
